import Mathlib

/-!
Shallow embedding of `src/YT_Down.py` (a yt-dlp wrapper CLI).

Library interactions (yt-dlp calls, `input()`, `print`) are modelled as
explicit parameters: an oracle for each network/extraction call, a list of
user input lines for the interactive prompt.  Pure data flow (option
dictionaries, menu construction, bounds checks, URL validation) is
translated directly from the source.
-/

namespace YTDown

/-- Result of the initial `extract_info` call in `test_format_availability`:
the fields of `info` that `select_quality` later reads. -/
structure VideoInfo where
  title : Option String
  duration : Option Nat
  uploader : Option String
  view_count : Option Nat
deriving DecidableEq

/-- One element of `test_info['requested_formats']` restricted to the fields
read by the probing code (the video stream picked out by the loop). -/
structure VideoFmt where
  height : Option Nat
  width : Option Nat
  fps : Option Nat
  vcodec : String
deriving DecidableEq

/-- What a single probe (`extract_info` with a `format` selector set) returns:
either the dict has `requested_formats` (separate video+audio streams, with
`video_format` the stream whose vcodec is not `none`, if any), or it is a
direct single-stream dict. -/
inductive TestInfo where
  | combined (video_format : Option VideoFmt)
  | direct (height : Option Nat) (width : Option Nat) (fps : Option Nat)
      (vcodec : String) (acodec : String)
deriving DecidableEq

/-- The dict appended to `available_formats` for a successful probe. -/
structure FormatEntry where
  selector : String
  description : String
  resolution : String
  height : Nat
  fps : Option Nat
  codec : String
  type : String
  display : String
deriving DecidableEq

/-- Python truthiness of an optional number (`None` and `0` are falsy). -/
def optTruthy : Option Nat → Bool
  | some n => n != 0
  | none => false

/-- `vcodec.split('.')[0]`. -/
def headDot (s : String) : String := ⟨s.data.takeWhile (fun c => c != '.')⟩

/-- `f"{width}x{height}" if width and height else f"{height}p" if height else "N/A"`. -/
def resLabel (width height : Option Nat) : String :=
  if optTruthy width && optTruthy height then
    toString (width.getD 0) ++ "x" ++ toString (height.getD 0)
  else if optTruthy height then toString (height.getD 0) ++ "p"
  else "N/A"

/-- `f" @{fps}fps" if fps else ""`. -/
def fpsLabel (fps : Option Nat) : String :=
  if optTruthy fps then " @" ++ toString (fps.getD 0) ++ "fps" else ""

/-- `f" ({vcodec.split('.')[0]})" if vcodec else ""`. -/
def codecLabel (vcodec : String) : String :=
  if vcodec != "" then " (" ++ headDot vcodec ++ ")" else ""

/-- Entry built from one successful probe of selector `sel` (lines 100-156 of
the source).  `none` when the probe succeeds but appends nothing: a combined
result without a video stream, or a direct result with falsy height. -/
def entryOf (sel desc : String) : TestInfo → Option FormatEntry
  | .combined none => none
  | .combined (some vf) =>
      some { selector := sel, description := desc,
             resolution := resLabel vf.width vf.height,
             height := vf.height.getD 0, fps := vf.fps, codec := vf.vcodec,
             type := "combined_separate",
             display := resLabel vf.width vf.height ++ fpsLabel vf.fps
                 ++ codecLabel vf.vcodec }
  | .direct height width fps vcodec acodec =>
      if optTruthy height then
        some { selector := sel, description := desc,
               resolution := resLabel width height,
               height := height.getD 0, fps := fps, codec := vcodec,
               type := if acodec != "" && acodec != "none" then "combined_direct"
                   else "video_only",
               display := resLabel width height ++ fpsLabel fps
                   ++ codecLabel vcodec }
      else none

/-- The fixed `test_formats` list of `test_format_availability`. -/
def test_formats : List (String × String) :=
  [("best", "Mejor calidad automática"),
   ("bestvideo+bestaudio/best", "Mejor video + audio"),
   ("worst", "Peor calidad"),
   ("bestvideo[height<=2160]+bestaudio/best", "Hasta 4K (2160p)"),
   ("bestvideo[height<=1440]+bestaudio/best", "Hasta 2K (1440p)"),
   ("bestvideo[height<=1080]+bestaudio/best", "Hasta 1080p"),
   ("bestvideo[height<=720]+bestaudio/best", "Hasta 720p"),
   ("bestvideo[height<=480]+bestaudio/best", "Hasta 480p"),
   ("bestvideo[height<=360]+bestaudio/best", "Hasta 360p")]

/-- The `for format_selector, description in test_formats:` loop with its
inner `try/except: continue`: a probe that raises is skipped, a probe that
succeeds contributes its entry (if any) to `available_formats`. -/
def probeLoop (probe : String → Except Unit TestInfo) :
    List (String × String) → List FormatEntry
  | [] => []
  | (sel, desc) :: rest =>
      match probe sel with
      | .error _ => probeLoop probe rest
      | .ok ti =>
          match entryOf sel desc ti with
          | some e => e :: probeLoop probe rest
          | none => probeLoop probe rest

/-- The dict returned by `test_format_availability` on success. -/
structure SmartResult where
  info : VideoInfo
  available_formats : List FormatEntry
deriving DecidableEq

/-- `test_format_availability`: the initial metadata `extract_info` may raise
(`extract = .error`), in which case the outer `except` prints and returns
`None`; otherwise the probe loop runs over `test_formats`. -/
def test_format_availability (extract : Except Unit VideoInfo)
    (probe : String → Except Unit TestInfo) : Option SmartResult :=
  match extract with
  | .error _ => none
  | .ok info => some { info := info, available_formats := probeLoop probe test_formats }

/-- `l.filterMap` view of the probe loop: entries of the probes that
succeeded, in list order. -/
def successEntries (probe : String → Except Unit TestInfo)
    (l : List (String × String)) : List FormatEntry :=
  l.filterMap (fun p =>
    match probe p.1 with
    | .error _ => none
    | .ok ti => entryOf p.1 p.2 ti)

/-- One entry of `manual_formats['combined']` (built by `get_manual_formats`). -/
structure ManualCombined where
  format_id : String
  height : Nat
  ext : String
  fps : Option Nat
  filesize : Nat
  vcodec : String
  acodec : String
deriving DecidableEq

/-- One entry of `manual_formats['video']`. -/
structure ManualVideo where
  format_id : String
  height : Nat
  ext : String
  fps : Option Nat
  filesize : Nat
  vcodec : String
deriving DecidableEq

/-- One entry of `manual_formats['audio']`. -/
structure ManualAudio where
  format_id : String
  abr : Option Nat
  ext : String
  filesize : Nat
  acodec : String
deriving DecidableEq

/-- The dict returned by `get_manual_formats`, passed into `select_quality`
as an oracle value (its construction is a pure reshaping of the library's
`formats` list and is not needed by any claim). -/
structure ManualFormats where
  combined : List ManualCombined
  video : List ManualVideo
  audio : List ManualAudio
deriving DecidableEq

/-- The `seen_heights` / `unique_formats` dedup loop of `select_quality`
(lines 268-275): keep the first entry for each positive height. -/
def dedupeByHeight : List FormatEntry → List Nat → List FormatEntry
  | [], _ => []
  | f :: rest, seen =>
      if 0 < f.height ∧ f.height ∉ seen then
        f :: dedupeByHeight rest (f.height :: seen)
      else dedupeByHeight rest seen

/-- `unique_formats.sort(key=lambda x: x.get('height', 0), reverse=True)`:
Python's `list.sort` is a stable sort; modelled by the stable
`List.insertionSort` with the non-strict descending-height relation. -/
def sortHeightDesc (l : List FormatEntry) : List FormatEntry :=
  List.insertionSort (fun a b => b.height ≤ a.height) l

/-- The smart-detected section of the menu (lines 268-285): dedupe, sort
descending, and show only entries whose height is positive. -/
def smartEntries (avail : List FormatEntry) : List FormatEntry :=
  (sortHeightDesc (dedupeByHeight avail [])).filter (fun f => decide (0 < f.height))

/-- The first entry of a probe-result list carrying the given height; this
is what "the first probed format for each height is kept" means. -/
def firstWithHeight (h : Nat) : List FormatEntry → Option FormatEntry
  | [] => none
  | f :: rest => if f.height = h then some f else firstWithHeight h rest

/-- The `quick_options` list appended unconditionally (lines 338-342). -/
def quick_options : List (String × String) :=
  [("best", "🚀 Mejor calidad automática"),
   ("bestvideo+bestaudio/best", "⭐ Mejor video + audio (recomendado)"),
   ("worst", "📱 Calidad más baja (móvil)")]

/-- The full `all_options` list built by `select_quality` (lines 260-347):
smart section selectors, then up to five entries from each manual section,
then the three quick options. -/
def menuOptions (avail : List FormatEntry) (manual : ManualFormats) : List String :=
  (smartEntries avail).map (fun f => f.selector)
    ++ (manual.combined.take 5).map (fun f => f.format_id)
    ++ (manual.video.take 5).map (fun f => f.format_id ++ "+bestaudio")
    ++ (manual.audio.take 5).map (fun f => f.format_id)
    ++ quick_options.map (fun q => q.1)

/-- One `input()` interaction at the selection prompt: a text line, or a
`KeyboardInterrupt` raised while waiting. -/
inductive UserInput where
  | line (s : String)
  | interrupt
deriving DecidableEq

/-- Python `str.strip()`: remove leading and trailing whitespace. -/
def pyStrip (s : String) : String :=
  ⟨((s.data.dropWhile Char.isWhitespace).reverse.dropWhile Char.isWhitespace).reverse⟩

/-- Python `str.lower()` (the characters this program compares are ASCII). -/
def pyLower (s : String) : String := ⟨s.data.map Char.toLower⟩

/-- All characters are decimal digits. -/
def digitsAll (cs : List Char) : Bool := cs.all (fun c => c.isDigit)

/-- Decimal value of a digit string. -/
def digitsToNat (cs : List Char) : Nat :=
  cs.foldl (fun acc c => acc * 10 + (c.toNat - 48)) 0

/-- Python `int()` on the character list of an already-stripped string: an
optional sign followed by at least one digit, else `ValueError` (`none`). -/
def pyIntList : List Char → Option Int
  | '-' :: cs =>
      if !cs.isEmpty && digitsAll cs then some (-(digitsToNat cs : Int)) else none
  | '+' :: cs =>
      if !cs.isEmpty && digitsAll cs then some ((digitsToNat cs : Int)) else none
  | cs =>
      if !cs.isEmpty && digitsAll cs then some ((digitsToNat cs : Int)) else none

/-- Python `int(s)` on an already-stripped string. -/
def pyInt (s : String) : Option Int := pyIntList s.data

/-- Result of the selection prompt loop. -/
inductive SelectOutcome where
  | selected (s : String)
  | cancelled
  | exhausted
deriving DecidableEq

/-- The `while True:` prompt loop of `select_quality` (lines 354-373): strip
the line; `'q'` (case-insensitive) returns `None`; a non-integer line hits
the `except ValueError` branch and re-prompts; an integer is accepted only
when `0 <= int(choice) - 1 < len(all_options)`, else an error is printed and
the loop re-prompts.  `exhausted` marks running out of modelled input (a
real `input()` would then raise an uncaught `EOFError`). -/
def selectionLoop (options : List String) : List UserInput → SelectOutcome
  | [] => .exhausted
  | .interrupt :: _ => .cancelled
  | .line raw :: rest =>
      let choice := pyStrip raw
      if pyLower choice = "q" then .cancelled
      else
        match pyInt choice with
        | none => selectionLoop options rest
        | some n =>
            let idx := n - 1
            if 0 ≤ idx ∧ idx < (options.length : Int) then
              .selected (options.getD idx.toNat "")
            else selectionLoop options rest

/-- `select_quality` (lines 240-373): `smart` is the value of
`test_format_availability`, `manual` the value of `get_manual_formats`.
When detection failed the default selector is returned without prompting;
otherwise the menu is printed and the prompt loop runs. -/
def select_quality (smart : Option SmartResult) (manual : ManualFormats)
    (inputs : List UserInput) : SelectOutcome :=
  match smart with
  | none => .selected "bestvideo+bestaudio/best"
  | some sr => selectionLoop (menuOptions sr.available_formats manual) inputs

/-- Python's `needle in hay` substring test. -/
def pyIn (needle hay : String) : Bool := decide (needle.data <:+: hay.data)

/-- Lines 484-485: when the CLI positional URL is absent (or falsy, i.e. the
empty string), the URL is read from the prompt and stripped. -/
def resolvedUrl (cliUrl : Option String) (promptResp : String) : String :=
  match cliUrl with
  | none => pyStrip promptResp
  | some u => if u = "" then pyStrip promptResp else u

/-- What `main` decides to do after URL resolution and validation
(lines 487-504): exit 1 with a message, or construct the downloader and
dispatch to one of the three download entry points. -/
inductive MainAction where
  | exitUrlRequired
  | exitInvalidUrl
  | runAudio (url path : String)
  | runPlaylist (url path : String) (quality : Option String)
  | runVideo (url path : String) (quality : Option String)
deriving DecidableEq

/-- The dispatch logic of `main`: empty URL exits, a URL containing neither
`'youtube.com'` nor `'youtu.be'` exits with the invalid-URL message before
the downloader is constructed, otherwise the audio / playlist / video entry
point is chosen. -/
def mainAction (cliUrl : Option String) (path : String) (audio : Bool)
    (quality : Option String) (playlistFlag : Bool) (promptResp : String) :
    MainAction :=
  let url := resolvedUrl cliUrl promptResp
  if url = "" then .exitUrlRequired
  else if !pyIn "youtube.com" url && !pyIn "youtu.be" url then .exitInvalidUrl
  else if audio then .runAudio url path
  else if playlistFlag || pyIn "playlist" url then .runPlaylist url path quality
  else .runVideo url path quality

/-- `needle` begins `hay`. -/
def leadsList : List Char → List Char → Bool
  | [], _ => true
  | _ :: _, [] => false
  | a :: as, b :: bs => a = b && leadsList as bs

/-- Characters after the first `"://"`, if the marker occurs. -/
def dropSchemeAux : List Char → Option (List Char)
  | [] => none
  | c :: rest =>
      if c = ':' && leadsList ['/', '/'] rest then some (rest.drop 2)
      else dropSchemeAux rest

/-- Characters after the scheme marker `"://"`; the whole string when there
is no scheme. -/
def dropScheme (l : List Char) : List Char := (dropSchemeAux l).getD l

/-- A character that can still belong to the host component. -/
def hostChar (c : Char) : Bool := !(c = '/' || c = '?' || c = '#' || c = ':')

/-- Host component of a URL: what follows the scheme, up to the first
delimiter. -/
def hostOf (url : String) : String := ⟨(dropScheme url.data).takeWhile hostChar⟩

/-- Hosts of the video site. -/
def youtubeHosts : List String :=
  ["youtube.com", "www.youtube.com", "m.youtube.com", "music.youtube.com",
   "youtu.be", "www.youtu.be"]

/-- Modelled from the spec: the spec calls for rejecting "non-video-site
URLs", so a URL "of the video site" is taken to be one whose host component
is a YouTube host.  This definition renders the spec's words for comparison
with the code's substring check; it embeds no code of the repository. -/
def isYouTubeUrl (url : String) : Bool := youtubeHosts.contains (hostOf url)

/-- The `postprocessors` entry used by `download_audio_only`. -/
structure Postprocessor where
  key : String
  preferredcodec : String
  preferredquality : String
deriving DecidableEq

/-- The yt-dlp option dict as this program populates it.  `progress_hooks`
holds one function, recorded here as a flag. -/
structure DlOpts where
  outtmpl : String
  writeinfojson : Bool
  writesubtitles : Bool
  writeautomaticsub : Bool
  subtitleslangs : List String
  ignoreerrors : Bool
  has_progress_hook : Bool
  quiet : Bool
  no_warnings : Bool
  format : Option String
  postprocessors : List Postprocessor
deriving DecidableEq

/-- `self.base_opts` from `__init__` (lines 28-38); `format` and
`postprocessors` are absent there. -/
def base_opts (download_path : String) : DlOpts :=
  { outtmpl := download_path ++ "/%(title)s.%(ext)s",
    writeinfojson := true,
    writesubtitles := true,
    writeautomaticsub := true,
    subtitleslangs := ["es", "en"],
    ignoreerrors := true,
    has_progress_hook := true,
    quiet := true,
    no_warnings := true,
    format := none,
    postprocessors := [] }

/-- An exception raised by the extraction library (a Python `Exception`
subclass, so `except Exception` catches it). -/
structure LibErr where
  msg : String
deriving DecidableEq

/-- One invocation of `yt_dlp.YoutubeDL(opts).download(urls)`. -/
structure DlCall where
  opts : DlOpts
  urls : List String
deriving DecidableEq

/-- Observable outcome of one download entry point: it always returns to its
caller, reporting cancellation, completion, or a printed error. -/
inductive DlResult where
  | cancelled
  | completed (call : DlCall)
  | errorPrinted (msg : String)
deriving DecidableEq

/-- The library call `download_video` makes for selector `f`: the base
options with only `format` set, and the single given URL. -/
def dvCall (path url f : String) : DlCall :=
  { opts := { base_opts path with format := some f }, urls := [url] }

/-- Body of the `try:` block of `download_video` (lines 377-396).  `fsel` is
the `format_selector` argument, `selRes` the value `select_quality` returns
when invoked (its `None` = cancellation), `dl` the library's download
behaviour; a library exception propagates out as `.error`. -/
def download_video_body (path url : String) (fsel selRes : Option String)
    (dl : DlCall → Except LibErr Unit) : Except LibErr DlResult :=
  match (match fsel with | some f => some f | none => selRes) with
  | none => .ok .cancelled
  | some f =>
      match dl (dvCall path url f) with
      | .ok _ => .ok (.completed (dvCall path url f))
      | .error e => .error e

/-- `download_video` with its `except Exception` handler (lines 398-400):
an exception becomes a printed message and a normal return. -/
def download_video (path url : String) (fsel selRes : Option String)
    (dl : DlCall → Except LibErr Unit) : DlResult :=
  match download_video_body path url fsel selRes dl with
  | .ok r => r
  | .error e => .errorPrinted ("❌ Error al descargar: " ++ e.msg)

/-- The fields of the playlist `extract_info` dict that `download_playlist`
reads; `entries = some n` models `'entries' in info` with `n` videos. -/
structure PlaylistInfo where
  title : Option String
  entries : Option Nat
deriving DecidableEq

/-- The library call `download_playlist` makes: base options with `format`
set and the playlist `outtmpl`. -/
def plCall (path url f : String) : DlCall :=
  { opts := { base_opts path with
                format := some f,
                outtmpl := path ++ "/%(playlist)s/%(playlist_index)s - %(title)s.%(ext)s" },
    urls := [url] }

/-- Body of the `try:` block of `download_playlist` (lines 404-436):
selector resolution, playlist info extraction, the confirmation prompt when
`'entries' in info`, then the download call. -/
def download_playlist_body (path url : String) (fsel selRes : Option String)
    (extract : Except LibErr PlaylistInfo) (confirm : String)
    (dl : DlCall → Except LibErr Unit) : Except LibErr DlResult :=
  match (match fsel with | some f => some f | none => selRes) with
  | none => .ok .cancelled
  | some f =>
      match extract with
      | .error e => .error e
      | .ok info =>
          let proceed : Bool :=
            match info.entries with
            | some _ => ["y", "yes", "s", "si"].contains (pyLower confirm)
            | none => true
          if proceed then
            match dl (plCall path url f) with
            | .ok _ => .ok (.completed (plCall path url f))
            | .error e => .error e
          else .ok .cancelled

/-- `download_playlist` with its `except Exception` handler (lines 438-439). -/
def download_playlist (path url : String) (fsel selRes : Option String)
    (extract : Except LibErr PlaylistInfo) (confirm : String)
    (dl : DlCall → Except LibErr Unit) : DlResult :=
  match download_playlist_body path url fsel selRes extract confirm dl with
  | .ok r => r
  | .error e => .errorPrinted ("❌ Error al descargar playlist: " ++ e.msg)

/-- The library call `download_audio_only` makes: base options with the
audio format and the MP3 postprocessor. -/
def audioCall (path url : String) : DlCall :=
  { opts := { base_opts path with
                format := some "bestaudio/best",
                postprocessors := [{ key := "FFmpegExtractAudio",
                                     preferredcodec := "mp3",
                                     preferredquality := "320" }] },
    urls := [url] }

/-- Body of the `try:` block of `download_audio_only` (lines 443-461). -/
def download_audio_only_body (path url : String)
    (dl : DlCall → Except LibErr Unit) : Except LibErr DlResult :=
  match dl (audioCall path url) with
  | .ok _ => .ok (.completed (audioCall path url))
  | .error e => .error e

/-- `download_audio_only` with its `except Exception` handler (lines 463-464). -/
def download_audio_only (path url : String)
    (dl : DlCall → Except LibErr Unit) : DlResult :=
  match download_audio_only_body path url dl with
  | .ok r => r
  | .error e => .errorPrinted ("❌ Error al descargar audio: " ++ e.msg)

/-- `argparse` action of one argument. -/
inductive ArgAction where
  | store
  | storeTrue
deriving DecidableEq

/-- One `parser.add_argument(...)` declaration. -/
structure ArgDef where
  flags : List String
  nargsOpt : Bool
  defaultVal : Option String
  action : ArgAction
  helpText : String
deriving DecidableEq

/-- The argument declarations of `main` (lines 469-473), in order. -/
def cli_arguments : List ArgDef :=
  [{ flags := ["url"], nargsOpt := true, defaultVal := none,
     action := .store, helpText := "URL del video de YouTube" },
   { flags := ["-p", "--path"], nargsOpt := false, defaultVal := some "./downloads",
     action := .store, helpText := "Carpeta de descarga" },
   { flags := ["-a", "--audio"], nargsOpt := false, defaultVal := none,
     action := .storeTrue, helpText := "Descargar solo audio (MP3)" },
   { flags := ["-q", "--quality"], nargsOpt := false, defaultVal := none,
     action := .store, helpText := "Formato específico" },
   { flags := ["--playlist"], nargsOpt := false, defaultVal := none,
     action := .storeTrue, helpText := "Descargar playlist completa" }]

lemma dropSchemeAux_suffix : ∀ (l r : List Char), dropSchemeAux l = some r → ∃ s, s ++ r = l := by
  intro l
  induction l with
  | nil => intro r h; simp [dropSchemeAux] at h
  | cons c rest ih =>
      intro r h
      simp only [dropSchemeAux] at h
      by_cases hc : (c = ':' && leadsList ['/', '/'] rest) = true
      · rw [if_pos hc] at h
        injection h with h2
        subst h2
        exact ⟨c :: rest.take 2, by simp⟩
      · rw [if_neg hc] at h
        obtain ⟨s, hs⟩ := ih r h
        exact ⟨c :: s, by simp [hs]⟩

lemma dropScheme_suffix (l : List Char) : ∃ s, s ++ dropScheme l = l := by
  unfold dropScheme
  cases h : dropSchemeAux l with
  | none => exact ⟨[], by simp⟩
  | some r => simpa using dropSchemeAux_suffix l r h

lemma takeWhile_rest (p : Char → Bool) (l : List Char) : ∃ t, l.takeWhile p ++ t = l :=
  ⟨l.dropWhile p, by simp⟩

lemma host_within (url : String) : ∃ s t, s ++ (hostOf url).data ++ t = url.data := by
  obtain ⟨s, hs⟩ := dropScheme_suffix url.data
  obtain ⟨t, ht⟩ := takeWhile_rest hostChar (dropScheme url.data)
  refine ⟨s, t, ?_⟩
  show s ++ (dropScheme url.data).takeWhile hostChar ++ t = url.data
  rw [List.append_assoc, ht, hs]

lemma within_trans {a b c : List Char} (h1 : ∃ s t, s ++ a ++ t = b)
    (h2 : ∃ s t, s ++ b ++ t = c) : ∃ s t, s ++ a ++ t = c := by
  obtain ⟨s1, t1, e1⟩ := h1
  obtain ⟨s2, t2, e2⟩ := h2
  exact ⟨s2 ++ s1, t1 ++ t2, by rw [← e2, ← e1]; simp [List.append_assoc]⟩

lemma pyIn_of_within {needle hay : String}
    (h : ∃ s t, s ++ needle.data ++ t = hay.data) : pyIn needle hay = true :=
  decide_eq_true h

lemma isYouTubeUrl_pyIn {url : String} (h : isYouTubeUrl url = true) :
    pyIn "youtube.com" url = true ∨ pyIn "youtu.be" url = true := by
  have hhost := host_within url
  have hmem : hostOf url ∈ youtubeHosts := List.mem_of_elem_eq_true h
  simp only [youtubeHosts, List.mem_cons, List.not_mem_nil, or_false] at hmem
  rcases hmem with h1 | h1 | h1 | h1 | h1 | h1 <;> rw [h1] at hhost
  · exact Or.inl (pyIn_of_within hhost)
  · exact Or.inl (pyIn_of_within (within_trans ⟨"www.".data, [], by decide⟩ hhost))
  · exact Or.inl (pyIn_of_within (within_trans ⟨"m.".data, [], by decide⟩ hhost))
  · exact Or.inl (pyIn_of_within (within_trans ⟨"music.".data, [], by decide⟩ hhost))
  · exact Or.inr (pyIn_of_within hhost)
  · exact Or.inr (pyIn_of_within (within_trans ⟨"www.".data, [], by decide⟩ hhost))

lemma isYouTubeUrl_ne_empty {url : String} (h : isYouTubeUrl url = true) : url ≠ "" := by
  intro he
  rw [he] at h
  exact absurd h (by decide)

lemma dispatch_ne (u path : String) (audio playlistFlag : Bool) (quality : Option String) :
    (if audio then MainAction.runAudio u path
     else if playlistFlag || pyIn "playlist" u then MainAction.runPlaylist u path quality
     else MainAction.runVideo u path quality) ≠ MainAction.exitInvalidUrl
    ∧ (if audio then MainAction.runAudio u path
       else if playlistFlag || pyIn "playlist" u then MainAction.runPlaylist u path quality
       else MainAction.runVideo u path quality) ≠ MainAction.exitUrlRequired := by
  cases audio <;> cases hb : (playlistFlag || pyIn "playlist" u) <;> simp [hb]

/-- C2 (counterexample): the URL `https://evil.com/a?youtube.com` is not a
URL of the video site (its host is `evil.com`), yet `main` does not print
the invalid-URL message and exit: validation passes because `'youtube.com'`
occurs as a substring, and the video download path runs. -/
theorem url_validation_counterexample :
    isYouTubeUrl "https://evil.com/a?youtube.com" = false
    ∧ mainAction (some "https://evil.com/a?youtube.com") "./downloads" false none false ""
        = MainAction.runVideo "https://evil.com/a?youtube.com" "./downloads" none := by
  constructor
  · decide
  · decide

/-- C2 (amended): with the URL resolved from the CLI argument or the
prompt, `main` prints the invalid-URL message and exits with status 1,
before constructing the downloader, exactly when the nonempty URL contains
neither `'youtube.com'` nor `'youtu.be'` as a substring; in particular every
URL of the video site passes this validation (but so do some non-video-site
URLs embedding those substrings, per the counterexample). -/
theorem url_validation_substring :
    ∀ (cliUrl : Option String) (path : String) (audio : Bool)
      (quality : Option String) (playlistFlag : Bool) (resp : String),
      (resolvedUrl cliUrl resp ≠ "" →
        (mainAction cliUrl path audio quality playlistFlag resp = MainAction.exitInvalidUrl
          ↔ pyIn "youtube.com" (resolvedUrl cliUrl resp) = false
            ∧ pyIn "youtu.be" (resolvedUrl cliUrl resp) = false))
      ∧ (isYouTubeUrl (resolvedUrl cliUrl resp) = true →
          mainAction cliUrl path audio quality playlistFlag resp ≠ MainAction.exitInvalidUrl
          ∧ mainAction cliUrl path audio quality playlistFlag resp ≠ MainAction.exitUrlRequired) := by
  intro cliUrl path audio quality playlistFlag resp
  simp only [mainAction]
  set u := resolvedUrl cliUrl resp with hu
  constructor
  · intro hne
    rw [if_neg hne]
    by_cases hv : (!pyIn "youtube.com" u && !pyIn "youtu.be" u) = true
    · rw [if_pos hv]
      simp only [Bool.and_eq_true, Bool.not_eq_true'] at hv
      exact iff_of_true rfl hv
    · rw [if_neg hv]
      simp only [Bool.and_eq_true, Bool.not_eq_true'] at hv
      exact iff_of_false (dispatch_ne u path audio playlistFlag quality).1 hv
  · intro hyt
    have hne : u ≠ "" := isYouTubeUrl_ne_empty hyt
    have hv : (!pyIn "youtube.com" u && !pyIn "youtu.be" u) = false := by
      rcases isYouTubeUrl_pyIn hyt with h1 | h1 <;> simp [h1]
    rw [if_neg hne, hv]
    simp only [Bool.false_eq_true, if_false]
    exact dispatch_ne u path audio playlistFlag quality

/-- Witness for C2's amended theorem at a genuine video-site URL. -/
theorem url_validation_substring_witness :
    mainAction (some "https://www.youtube.com/watch?v=a1") "./downloads" false none false ""
      ≠ MainAction.exitInvalidUrl
    ∧ mainAction (some "https://www.youtube.com/watch?v=a1") "./downloads" false none false ""
      ≠ MainAction.exitUrlRequired :=
  (url_validation_substring (some "https://www.youtube.com/watch?v=a1")
    "./downloads" false none false "").2 (by decide)

/-- C5: every exception raised by the extraction library inside the `try:`
block of `download_video`, `download_playlist`, or `download_audio_only` is
caught by that function's top-level `except Exception` handler: the function
returns normally with the corresponding printed error message, and never
propagates the exception to its caller. -/
theorem library_errors_caught :
    (∀ (path url : String) (fsel selRes : Option String)
       (dl : DlCall → Except LibErr Unit) (e : LibErr),
        download_video_body path url fsel selRes dl = Except.error e →
        download_video path url fsel selRes dl
          = DlResult.errorPrinted ("❌ Error al descargar: " ++ e.msg))
    ∧ (∀ (path url : String) (fsel selRes : Option String)
         (extract : Except LibErr PlaylistInfo) (confirm : String)
         (dl : DlCall → Except LibErr Unit) (e : LibErr),
        download_playlist_body path url fsel selRes extract confirm dl = Except.error e →
        download_playlist path url fsel selRes extract confirm dl
          = DlResult.errorPrinted ("❌ Error al descargar playlist: " ++ e.msg))
    ∧ (∀ (path url : String) (dl : DlCall → Except LibErr Unit) (e : LibErr),
        download_audio_only_body path url dl = Except.error e →
        download_audio_only path url dl
          = DlResult.errorPrinted ("❌ Error al descargar audio: " ++ e.msg)) := by
  refine ⟨?_, ?_, ?_⟩
  · intro path url fsel selRes dl e h
    unfold download_video
    rw [h]
  · intro path url fsel selRes extract confirm dl e h
    unfold download_playlist
    rw [h]
  · intro path url dl e h
    unfold download_audio_only
    rw [h]

/-- Witness for C5: a download whose library call raises is reported as a
printed error, not a propagated exception. -/
theorem library_errors_caught_witness :
    download_audio_only "./downloads" "u" (fun _ => Except.error { msg := "boom" })
      = DlResult.errorPrinted ("❌ Error al descargar audio: " ++ "boom") :=
  library_errors_caught.2.2 "./downloads" "u" (fun _ => Except.error { msg := "boom" })
    { msg := "boom" } rfl

/-- C6: when `download_video` is called without an explicit format, the
string `select_quality` returned is stored unchanged as the `'format'`
option, the remaining base options are unchanged, and the library's
download is invoked with exactly that option dict and the given URL. -/
theorem selector_passthrough :
    ∀ (path url f : String) (dl : DlCall → Except LibErr Unit),
      download_video_body path url none (some f) dl
        = (match dl (dvCall path url f) with
            | Except.ok _ => Except.ok (DlResult.completed (dvCall path url f))
            | Except.error e => Except.error e)
      ∧ (dvCall path url f).opts.format = some f
      ∧ (dvCall path url f).urls = [url]
      ∧ (dvCall path url f).opts.outtmpl = (base_opts path).outtmpl
      ∧ (dvCall path url f).opts.writeinfojson = (base_opts path).writeinfojson
      ∧ (dvCall path url f).opts.writesubtitles = (base_opts path).writesubtitles
      ∧ (dvCall path url f).opts.writeautomaticsub = (base_opts path).writeautomaticsub
      ∧ (dvCall path url f).opts.subtitleslangs = (base_opts path).subtitleslangs
      ∧ (dvCall path url f).opts.ignoreerrors = (base_opts path).ignoreerrors
      ∧ (dvCall path url f).opts.has_progress_hook = (base_opts path).has_progress_hook
      ∧ (dvCall path url f).opts.quiet = (base_opts path).quiet
      ∧ (dvCall path url f).opts.no_warnings = (base_opts path).no_warnings
      ∧ (dvCall path url f).opts.postprocessors = (base_opts path).postprocessors := by
  intro path url f dl
  exact ⟨rfl, rfl, rfl, rfl, rfl, rfl, rfl, rfl, rfl, rfl, rfl, rfl, rfl⟩

/-- C7: quality detection first queries the library for metadata and then
probes the fixed nine-element candidate list, in order from `'best'` down
to `'bestvideo[height<=360]+bestaudio/best'`; the list is a program
constant, identical on every run. -/
theorem fixed_probe_list :
    test_formats.length = 9
    ∧ test_formats.map Prod.fst
        = ["best", "bestvideo+bestaudio/best", "worst",
           "bestvideo[height<=2160]+bestaudio/best",
           "bestvideo[height<=1440]+bestaudio/best",
           "bestvideo[height<=1080]+bestaudio/best",
           "bestvideo[height<=720]+bestaudio/best",
           "bestvideo[height<=480]+bestaudio/best",
           "bestvideo[height<=360]+bestaudio/best"]
    ∧ (∀ (info : VideoInfo) (probe : String → Except Unit TestInfo),
        test_format_availability (Except.ok info) probe
          = some { info := info, available_formats := probeLoop probe test_formats }) :=
  ⟨rfl, rfl, fun _ _ => rfl⟩

/-- C8: the command line declares exactly the five arguments the spec lists
(optional positional URL; `-p` alias `--path` defaulting to `./downloads`;
`-a` alias `--audio` flag; `-q` alias `--quality`; `--playlist` flag), and
when the URL argument is absent it is read from the interactive prompt. -/
theorem cli_surface :
    cli_arguments.map (fun a => a.flags)
        = [["url"], ["-p", "--path"], ["-a", "--audio"], ["-q", "--quality"], ["--playlist"]]
    ∧ cli_arguments.map (fun a => a.action)
        = [ArgAction.store, ArgAction.store, ArgAction.storeTrue,
           ArgAction.store, ArgAction.storeTrue]
    ∧ cli_arguments.map (fun a => a.defaultVal)
        = [none, some "./downloads", none, none, none]
    ∧ cli_arguments.map (fun a => a.nargsOpt) = [true, false, false, false, false]
    ∧ cli_arguments.length = 5
    ∧ (∀ resp : String, resolvedUrl none resp = pyStrip resp) :=
  ⟨rfl, rfl, rfl, rfl, rfl, fun _ => rfl⟩

/-- C9: when metadata extraction raises, `test_format_availability` returns
`None`; `select_quality` then prints an error and returns the default
selector `'bestvideo+bestaudio/best'` without prompting, for every manual
format dict and every sequence of pending user inputs. -/
theorem detection_failure_fallback :
    (∀ probe : String → Except Unit TestInfo,
        test_format_availability (Except.error ()) probe = none)
    ∧ (∀ (manual : ManualFormats) (inputs : List UserInput),
        select_quality none manual inputs
          = SelectOutcome.selected "bestvideo+bestaudio/best") :=
  ⟨fun _ => rfl, fun _ _ => rfl⟩

/-- C10: the option list of every `select_quality` run that reaches the
prompt ends with the three quick options `'best'`,
`'bestvideo+bestaudio/best'`, `'worst'` — appended unconditionally after all
detected-format sections — so it always has at least three entries. -/
theorem quick_options_always_appended :
    ∀ (avail : List FormatEntry) (manual : ManualFormats), ∃ pre,
      menuOptions avail manual = pre ++ ["best", "bestvideo+bestaudio/best", "worst"]
      ∧ 3 ≤ (menuOptions avail manual).length := by
  intro avail manual
  refine ⟨(smartEntries avail).map (fun f => f.selector)
      ++ (manual.combined.take 5).map (fun f => f.format_id)
      ++ (manual.video.take 5).map (fun f => f.format_id ++ "+bestaudio")
      ++ (manual.audio.take 5).map (fun f => f.format_id), ?_, ?_⟩
  · simp [menuOptions, quick_options]
  · simp only [menuOptions, List.length_append, quick_options, List.length_map,
      List.length_cons, List.length_nil]
    omega

lemma digit_toLower {c : Char} (h : c.isDigit = true) : c.toLower = c := by
  simp only [Char.isDigit, Bool.and_eq_true, decide_eq_true_eq] at h
  have h57 : c.toNat ≤ 57 := by
    have h2 := h.2
    simp only [UInt32.le_def, BitVec.le_def] at h2
    exact h2
  have hcon : ¬(c.toNat ≥ 65 ∧ c.toNat ≤ 90) := by omega
  simp [Char.toLower, hcon]

lemma pyIntList_singleton {c : Char} {n : Int} (h : pyIntList [c] = some n) :
    c.isDigit = true := by
  by_cases h1 : c = '-'
  · subst h1; simp [pyIntList, digitsAll] at h
  · by_cases h2 : c = '+'
    · subst h2; simp [pyIntList, digitsAll] at h
    · by_cases hd : c.isDigit = true
      · exact hd
      · exfalso
        simp [pyIntList, digitsAll, h1, h2, hd] at h

lemma pyInt_ne_q {s : String} {n : Int} (h : pyInt s = some n) : pyLower s ≠ "q" := by
  intro he
  have hd : s.data.map Char.toLower = ['q'] := congrArg String.data he
  obtain ⟨c, hc1, hc2⟩ : ∃ c, s.data = [c] ∧ c.toLower = 'q' := by
    cases hsd : s.data with
    | nil => rw [hsd] at hd; simp at hd
    | cons c cs =>
        rw [hsd] at hd
        simp only [List.map_cons, List.cons.injEq] at hd
        have hcs : cs = [] := by simpa using hd.2
        exact ⟨c, by rw [hcs], hd.1⟩
  have hdig : c.isDigit = true := pyIntList_singleton (by rwa [pyInt, hc1] at h)
  rw [digit_toLower hdig] at hc2
  subst hc2
  exact absurd hdig (by decide)

lemma selectionLoop_spec : ∀ (options : List String) (inputs : List UserInput) (sel : String),
    selectionLoop options inputs = SelectOutcome.selected sel →
    ∃ c : Nat, 1 ≤ c ∧ c ≤ options.length ∧ sel = options.getD (c - 1) ""
      ∧ ∃ s, UserInput.line s ∈ inputs ∧ pyInt (pyStrip s) = some (c : Int) := by
  intro options inputs
  induction inputs with
  | nil => intro sel h; simp [selectionLoop] at h
  | cons i rest ih =>
      intro sel h
      cases i with
      | interrupt => simp [selectionLoop] at h
      | line raw =>
          simp only [selectionLoop] at h
          split at h
          · exact absurd h (by simp)
          · split at h
            · next m hp =>
                obtain ⟨c, h1, h2, h3, s, hs, hps⟩ := ih sel h
                exact ⟨c, h1, h2, h3, s, List.mem_cons_of_mem _ hs, hps⟩
            · next m n hp =>
                split at h
                · next hb =>
                    obtain ⟨hb1, hb2⟩ := hb
                    injection h with h'
                    refine ⟨n.toNat, by omega, by omega, ?_, raw, by simp, ?_⟩
                    · rw [← h']
                      congr 1
                      omega
                    · rw [hp]
                      congr 1
                      omega
                · next hb =>
                    obtain ⟨c, h1, h2, h3, s, hs, hps⟩ := ih sel h
                    exact ⟨c, h1, h2, h3, s, List.mem_cons_of_mem _ hs, hps⟩

lemma probeLoop_append (probe : String → Except Unit TestInfo) :
    ∀ l₁ l₂, probeLoop probe (l₁ ++ l₂) = probeLoop probe l₁ ++ probeLoop probe l₂ := by
  intro l₁ l₂
  induction l₁ with
  | nil => simp [probeLoop]
  | cons p rest ih =>
      obtain ⟨sel, desc⟩ := p
      simp only [List.cons_append, probeLoop]
      cases hpe : probe sel with
      | error e => simp [ih]
      | ok ti =>
          cases hee : entryOf sel desc ti with
          | none => simp [hee, ih]
          | some e => simp [hee, ih]

lemma probeLoop_filterMap (probe : String → Except Unit TestInfo) :
    ∀ l, probeLoop probe l = successEntries probe l := by
  intro l
  induction l with
  | nil => rfl
  | cons p rest ih =>
      obtain ⟨sel, desc⟩ := p
      simp only [probeLoop, successEntries, List.filterMap_cons]
      cases hpe : probe sel with
      | error e => simpa [successEntries, hpe] using ih
      | ok ti =>
          cases hee : entryOf sel desc ti with
          | none => simpa [successEntries, hpe, hee] using ih
          | some e => simpa [successEntries, hpe, hee] using ih

lemma dedupe_mem : ∀ (avail : List FormatEntry) (seen : List Nat) (f : FormatEntry),
    f ∈ dedupeByHeight avail seen → f ∈ avail ∧ 0 < f.height ∧ f.height ∉ seen := by
  intro avail
  induction avail with
  | nil => intro seen f h; simp [dedupeByHeight] at h
  | cons g rest ih =>
      intro seen f h
      simp only [dedupeByHeight] at h
      split at h
      · next hc =>
          rcases List.mem_cons.mp h with rfl | h2
          · exact ⟨List.mem_cons_self _ _, hc.1, hc.2⟩
          · obtain ⟨hmem, hpos, hseen⟩ := ih (g.height :: seen) f h2
            exact ⟨List.mem_cons_of_mem _ hmem, hpos,
              fun hs => hseen (List.mem_cons_of_mem _ hs)⟩
      · next hc =>
          obtain ⟨hmem, hpos, hseen⟩ := ih seen f h
          exact ⟨List.mem_cons_of_mem _ hmem, hpos, hseen⟩

lemma dedupe_first : ∀ (avail : List FormatEntry) (seen : List Nat) (f : FormatEntry),
    f ∈ dedupeByHeight avail seen → firstWithHeight f.height avail = some f := by
  intro avail
  induction avail with
  | nil => intro seen f h; simp [dedupeByHeight] at h
  | cons g rest ih =>
      intro seen f h
      simp only [dedupeByHeight] at h
      split at h
      · next hc =>
          rcases List.mem_cons.mp h with rfl | h2
          · simp [firstWithHeight]
          · have hmem := dedupe_mem rest (g.height :: seen) f h2
            have hne : g.height ≠ f.height := by
              intro e
              exact hmem.2.2 (by rw [← e]; exact List.mem_cons_self _ _)
            rw [firstWithHeight, if_neg hne]
            exact ih (g.height :: seen) f h2
      · next hc =>
          have hmem := dedupe_mem rest seen f h
          have hne : g.height ≠ f.height := by
            by_cases hz : 0 < g.height
            · have hin : g.height ∈ seen := by
                by_contra hns
                exact hc ⟨hz, hns⟩
              intro e
              rw [e] at hin
              exact hmem.2.2 hin
            · intro e
              have := hmem.2.1
              omega
          rw [firstWithHeight, if_neg hne]
          exact ih seen f h

lemma dedupe_pairwise_ne : ∀ (avail : List FormatEntry) (seen : List Nat),
    (dedupeByHeight avail seen).Pairwise (fun a b => a.height ≠ b.height) := by
  intro avail
  induction avail with
  | nil => intro seen; simp [dedupeByHeight]
  | cons g rest ih =>
      intro seen
      simp only [dedupeByHeight]
      split
      · next hc =>
          refine List.Pairwise.cons ?_ (ih (g.height :: seen))
          intro b hb
          have hb2 := (dedupe_mem rest (g.height :: seen) b hb).2.2
          intro e
          exact hb2 (by rw [← e]; exact List.mem_cons_self _ _)
      · exact ih seen

lemma dedupe_covers : ∀ (avail : List FormatEntry) (seen : List Nat) (g : FormatEntry),
    g ∈ avail → 0 < g.height →
    g.height ∈ seen ∨ ∃ f ∈ dedupeByHeight avail seen, f.height = g.height := by
  intro avail
  induction avail with
  | nil => intro seen g hg; intro _; simp at hg
  | cons x rest ih =>
      intro seen g hg hpos
      simp only [dedupeByHeight]
      split
      · next hc =>
          rcases List.mem_cons.mp hg with rfl | h2
          · exact Or.inr ⟨g, List.mem_cons_self _ _, rfl⟩
          · rcases ih (x.height :: seen) g h2 hpos with hs | ⟨f, hf, he⟩
            · rcases List.mem_cons.mp hs with he2 | hs2
              · exact Or.inr ⟨x, List.mem_cons_self _ _, by rw [he2]⟩
              · exact Or.inl hs2
            · exact Or.inr ⟨f, List.mem_cons_of_mem _ hf, he⟩
      · next hc =>
          rcases List.mem_cons.mp hg with rfl | h2
          · left
            by_contra hns
            exact hc ⟨hpos, hns⟩
          · exact ih seen g h2 hpos

lemma sortHeightDesc_perm (l : List FormatEntry) : List.Perm (sortHeightDesc l) l :=
  List.perm_insertionSort _ l

lemma sortHeightDesc_sorted (l : List FormatEntry) :
    (sortHeightDesc l).Pairwise (fun a b => b.height ≤ a.height) := by
  letI : IsTotal FormatEntry (fun a b => b.height ≤ a.height) :=
    ⟨fun a b => Nat.le_total b.height a.height⟩
  letI : IsTrans FormatEntry (fun a b => b.height ≤ a.height) :=
    ⟨fun a b c h1 h2 => Nat.le_trans h2 h1⟩
  exact List.sorted_insertionSort _ l

lemma smartEntries_sorted (avail : List FormatEntry) :
    (smartEntries avail).Pairwise (fun a b => b.height < a.height) := by
  have hle := sortHeightDesc_sorted (dedupeByHeight avail [])
  have hne : (sortHeightDesc (dedupeByHeight avail [])).Pairwise
      (fun a b => a.height ≠ b.height) :=
    (dedupe_pairwise_ne avail []).perm (sortHeightDesc_perm _).symm (fun h => h.symm)
  have hlt := (hle.and hne).imp
    (fun h => Nat.lt_of_le_of_ne h.1 (fun e => h.2 e.symm))
  exact hlt.filter _

lemma smartEntries_first (avail : List FormatEntry) (f : FormatEntry)
    (h : f ∈ smartEntries avail) :
    0 < f.height ∧ firstWithHeight f.height avail = some f := by
  unfold smartEntries at h
  obtain ⟨hmem, _⟩ := List.mem_filter.mp h
  have hd : f ∈ dedupeByHeight avail [] := (sortHeightDesc_perm _).mem_iff.mp hmem
  exact ⟨(dedupe_mem avail [] f hd).2.1, dedupe_first avail [] f hd⟩

lemma smartEntries_covers (avail : List FormatEntry) (g : FormatEntry)
    (hg : g ∈ avail) (hpos : 0 < g.height) :
    ∃ f ∈ smartEntries avail, f.height = g.height := by
  rcases dedupe_covers avail [] g hg hpos with h | ⟨f, hf, he⟩
  · simp at h
  · refine ⟨f, ?_, he⟩
    unfold smartEntries
    refine List.mem_filter.mpr ⟨(sortHeightDesc_perm _).mem_iff.mpr hf, ?_⟩
    have hp := (dedupe_mem avail [] f hf).2.1
    simpa using hp

/-- C1: when a `select_quality` run reaches the interactive prompt over the
printed option list, every returned selector comes from an accepted integer
choice `c` with `1 ≤ c ≤ n` (where `n` is the option count), and is read
from the option list at index `c - 1`; a line that parses as an integer
outside that range, or a non-integer line other than the quit command, is
rejected and the loop re-prompts on the remaining input. -/
theorem select_quality_menu_bounds :
    (∀ (sr : SmartResult) (manual : ManualFormats) (inputs : List UserInput) (sel : String),
        select_quality (some sr) manual inputs = SelectOutcome.selected sel →
        ∃ c : Nat, 1 ≤ c ∧ c ≤ (menuOptions sr.available_formats manual).length
          ∧ sel = (menuOptions sr.available_formats manual).getD (c - 1) ""
          ∧ ∃ s, UserInput.line s ∈ inputs ∧ pyInt (pyStrip s) = some (c : Int))
    ∧ (∀ (options : List String) (raw : String) (rest : List UserInput),
        pyLower (pyStrip raw) ≠ "q" → pyInt (pyStrip raw) = none →
        selectionLoop options (UserInput.line raw :: rest) = selectionLoop options rest)
    ∧ (∀ (options : List String) (raw : String) (rest : List UserInput) (n : Int),
        pyInt (pyStrip raw) = some n → (n < 1 ∨ (options.length : Int) < n) →
        selectionLoop options (UserInput.line raw :: rest) = selectionLoop options rest) := by
  refine ⟨?_, ?_, ?_⟩
  · intro sr manual inputs sel h
    exact selectionLoop_spec (menuOptions sr.available_formats manual) inputs sel h
  · intro options raw rest hq hp
    simp only [selectionLoop]
    rw [if_neg hq, hp]
  · intro options raw rest n hp hout
    simp only [selectionLoop]
    rw [if_neg (pyInt_ne_q hp), hp]
    show (if 0 ≤ n - 1 ∧ n - 1 < (options.length : Int) then
        SelectOutcome.selected (options.getD (n - 1).toNat "")
      else selectionLoop options rest) = selectionLoop options rest
    rw [if_neg (by omega)]

/-- Witness for C1: with an empty detection result the menu holds the three
quick options and the input line `2` selects the second of them. -/
theorem select_quality_menu_bounds_witness :
    ∃ c : Nat, 1 ≤ c
      ∧ c ≤ (menuOptions [] { combined := [], video := [], audio := [] }).length
      ∧ "bestvideo+bestaudio/best"
          = (menuOptions [] { combined := [], video := [], audio := [] }).getD (c - 1) ""
      ∧ ∃ s, UserInput.line s ∈ [UserInput.line "2"]
          ∧ pyInt (pyStrip s) = some (c : Int) :=
  select_quality_menu_bounds.1
    { info := { title := none, duration := none, uploader := none, view_count := none },
      available_formats := [] }
    { combined := [], video := [], audio := [] } [UserInput.line "2"]
    "bestvideo+bestaudio/best" (by decide)

/-- C3: a probe candidate whose library call raises is skipped — the probe
loop's result over a list containing it equals the result over the list
without it — and on success `test_format_availability` returns exactly the
entries gathered from the probes that succeeded, in probe order. -/
theorem probe_skip_and_continue :
    (∀ (probe : String → Except Unit TestInfo) (l₁ l₂ : List (String × String))
       (c : String × String),
        probe c.1 = Except.error () →
        probeLoop probe (l₁ ++ c :: l₂) = probeLoop probe (l₁ ++ l₂))
    ∧ (∀ (probe : String → Except Unit TestInfo) (info : VideoInfo),
        test_format_availability (Except.ok info) probe
          = some { info := info,
                   available_formats := successEntries probe test_formats }) := by
  constructor
  · intro probe l₁ l₂ c hfail
    obtain ⟨sel, desc⟩ := c
    rw [probeLoop_append, probeLoop_append]
    congr 1
    simp only [probeLoop]
    rw [(hfail : probe sel = Except.error ())]
  · intro probe info
    unfold test_format_availability
    rw [probeLoop_filterMap]

/-- Witness for C3: a probe list whose middle candidate raises produces the
same entries as the list with that candidate removed. -/
theorem probe_skip_and_continue_witness :
    probeLoop
        (fun s => if s = "bad" then Except.error ()
          else Except.ok (TestInfo.direct (some 720) (some 1280) none "avc1" "mp4a"))
        ([("a", "A")] ++ ("bad", "B") :: [("c", "C")])
      = probeLoop
        (fun s => if s = "bad" then Except.error ()
          else Except.ok (TestInfo.direct (some 720) (some 1280) none "avc1" "mp4a"))
        ([("a", "A")] ++ [("c", "C")]) :=
  probe_skip_and_continue.1
    (fun s => if s = "bad" then Except.error ()
      else Except.ok (TestInfo.direct (some 720) (some 1280) none "avc1" "mp4a"))
    [("a", "A")] [("c", "C")] ("bad", "B") (by simp)

/-- C4: the smart-detected menu section keeps, for each positive height,
exactly the first probed format with that height (entries with height 0 —
unknown heights are stored as 0 — are filtered out), and prints the kept
entries in strictly decreasing height order. -/
theorem smart_section_unique_sorted :
    ∀ avail : List FormatEntry,
      (smartEntries avail).Pairwise (fun a b => b.height < a.height)
      ∧ (∀ f ∈ smartEntries avail,
          0 < f.height ∧ firstWithHeight f.height avail = some f)
      ∧ (∀ g ∈ avail, 0 < g.height → ∃ f ∈ smartEntries avail, f.height = g.height) :=
  fun avail => ⟨smartEntries_sorted avail,
    fun f hf => smartEntries_first avail f hf,
    fun g hg hpos => smartEntries_covers avail g hg hpos⟩

/-- Witness for C4: in a probe list with a duplicate height, the shown entry
for height 720 is the first probed one. -/
theorem smart_section_unique_sorted_witness :
    0 < (⟨"a", "", "", 720, none, "", "", ""⟩ : FormatEntry).height
    ∧ firstWithHeight (⟨"a", "", "", 720, none, "", "", ""⟩ : FormatEntry).height
        [⟨"a", "", "", 720, none, "", "", ""⟩, ⟨"b", "", "", 1080, none, "", "", ""⟩,
         ⟨"c", "", "", 720, none, "", "", ""⟩]
      = some ⟨"a", "", "", 720, none, "", "", ""⟩ :=
  (smart_section_unique_sorted
      [⟨"a", "", "", 720, none, "", "", ""⟩, ⟨"b", "", "", 1080, none, "", "", ""⟩,
       ⟨"c", "", "", 720, none, "", "", ""⟩]).2.1
    ⟨"a", "", "", 720, none, "", "", ""⟩ (by decide)

end YTDown
